import Mathlib

/-!
Shallow embedding of the named-file storage and retrieval subsystem of the
mcp-z server library (src/file-serving/utils.ts, src/file-serving/router.ts,
src/file-serving/types.ts and src/types.ts).

Strings are modelled as Lean strings and all JavaScript string primitives
(indexOf, includes, startsWith, slice, split) are re-implemented over the
underlying character lists, mirroring the ECMAScript semantics on code
points.  Node's posix path functions (join, resolve, normalize) are
re-implemented from the Node.js source semantics.  Filesystem state is a
function from absolute paths to optional byte lists, and side effects of
the reservation service are recorded as an explicit effect list.  Thrown
JavaScript errors are modelled with Except over an error-kind type that
distinguishes the configuration-error and generation-error kinds of the
error taxonomy.
-/

/-- JsString first index of occurrence of sub in s, mirroring the search
performed by String.prototype.indexOf: the least position at which sub is a
prefix of the remaining suffix, none when there is no occurrence. -/
def firstIdx (s sub : List Char) : Option Nat :=
  if sub.isPrefixOf s then some 0
  else
    match s with
    | [] => none
    | _ :: t => (firstIdx t sub).map (fun n => n + 1)

/-- JsString includes: s.includes(sub) holds exactly when indexOf finds an
occurrence (the empty string is included in every string). -/
def jsIncludes (s sub : String) : Bool :=
  (firstIdx s.data sub.data).isSome

/-- JsString startsWith, as prefix test on the character lists. -/
def jsStartsWith (s pre : String) : Bool :=
  pre.data.isPrefixOf s.data

/-- JsString endsWith, as suffix test on the character lists. -/
def jsEndsWith (s suf : String) : Bool :=
  suf.data.isSuffixOf s.data

/-- JsString slice(n): drop the first n characters. -/
def jsDrop (s : String) : Nat → String :=
  fun n => String.mk (s.data.drop n)

/-- Result of parseStoredName: the id and filename fields of the returned
object (utils.ts). -/
structure ParsedName where
  id : String
  filename : String
deriving Repr, DecidableEq

/-- Embedding of formatStoredName (utils.ts): plain concatenation
id + delimiter + originalFilename. -/
def formatStoredName (id originalFilename delimiter : String) : String :=
  id ++ delimiter ++ originalFilename

/-- Embedding of parseStoredName (utils.ts): split at the first occurrence
of the delimiter; when the delimiter does not occur, fall back to returning
the whole stored name as both id and filename. -/
def parseStoredName (storedName delimiter : String) : ParsedName :=
  match firstIdx storedName.data delimiter.data with
  | none => ⟨storedName, storedName⟩
  | some i =>
      ⟨String.mk (storedName.data.take i),
       String.mk (storedName.data.drop (i + delimiter.data.length))⟩

/-- Node posix path model: split a path string at every slash character,
mirroring the segment scan of Node's normalizeString. -/
def splitSlashAux : List Char → List Char → List String
  | [], cur => [String.mk cur.reverse]
  | c :: rest, cur =>
      if c = Char.ofNat 47 then String.mk cur.reverse :: splitSlashAux rest []
      else splitSlashAux rest (c :: cur)

/-- Split a string into its slash-separated segments. -/
def splitSlash (s : String) : List String :=
  splitSlashAux s.data []

/-- Node posix normalizeString segment processing: empty and dot segments
are dropped, a dot-dot segment pops the previous segment, and when there is
nothing to pop it is kept only when allowAboveRoot is set (relative
paths). -/
def normSegs (allowAboveRoot : Bool) : List String → List String → List String
  | acc, [] => acc.reverse
  | acc, seg :: rest =>
      if seg = "" ∨ seg = "." then normSegs allowAboveRoot acc rest
      else if seg = ".." then
        match acc with
        | [] =>
            if allowAboveRoot then normSegs allowAboveRoot [".."] rest
            else normSegs allowAboveRoot [] rest
        | top :: accRest =>
            if top = ".." then normSegs allowAboveRoot (".." :: ".." :: accRest) rest
            else normSegs allowAboveRoot accRest rest
      else normSegs allowAboveRoot (seg :: acc) rest

/-- Join a segment list back with slashes. -/
def joinSegs : List String → String
  | [] => ""
  | [s] => s
  | s :: rest => s ++ "/" ++ joinSegs (rest)

/-- Node posix path.normalize. -/
def pathNormalize (p : String) : String :=
  if p.length = 0 then "."
  else
    let isAbs := jsStartsWith p "/"
    let trailingSep := jsEndsWith p "/"
    let res := joinSegs (normSegs (!isAbs) [] (splitSlash p))
    if res.length = 0 then
      if isAbs then "/" else if trailingSep then "./" else "."
    else
      let res2 := if trailingSep then res ++ "/" else res
      if isAbs then "/" ++ res2 else res2

/-- Node posix path.join restricted to the two-argument form used by the
repository: concatenate the nonempty parts with a slash and normalize. -/
def pathJoin (a b : String) : String :=
  if a.length = 0 then
    if b.length = 0 then "." else pathNormalize b
  else if b.length = 0 then pathNormalize a
  else pathNormalize (a ++ "/" ++ b)

/-- Node posix path.resolve of a single path against an absolute current
working directory cwd: prepend cwd when the path is not absolute, then
process segments without allowing dot-dot above the root. -/
def pathResolve (cwd p : String) : String :=
  let combined :=
    if jsStartsWith p "/" then p
    else if p.length = 0 then cwd
    else cwd ++ "/" ++ p
  let res := joinSegs (normSegs false [] (splitSlash combined))
  if res.length = 0 then "/" else "/" ++ res

/-- Error kinds of the error taxonomy that the embedded functions can
throw: a configuration error carrying its message, or a generation error
naming the delimiter and the attempt ceiling. -/
inductive FsError where
  | configurationError (msg : String)
  | generationError (delimiter : String) (maxAttempts : Nat)
deriving Repr, DecidableEq

/-- Model of the FILE_URI_PREFIX constant of utils.ts (renamed). -/
def fileUriScheme : String := "file://"

/-- Model of the DEFAULT_DELIMITER constant (utils.ts and router.ts). -/
def DEFAULT_DELIMITER : String := "~"

/-- Embedding of resolveResourceStorePath (utils.ts): reject an empty
location, strip a leading file:// prefix and resolve the remainder, reject
any other scheme pattern, and resolve a bare path against cwd. -/
def resolveResourceStorePath (cwd resourceStoreUri : String) : Except FsError String :=
  if resourceStoreUri = "" then
    Except.error (FsError.configurationError "File serving requires a resourceStoreUri.")
  else if jsStartsWith resourceStoreUri fileUriScheme then
    Except.ok (pathResolve cwd (jsDrop resourceStoreUri fileUriScheme.length))
  else if jsIncludes resourceStoreUri "://" then
    Except.error (FsError.configurationError
      ("Unsupported resourceStoreUri scheme: " ++ resourceStoreUri ++ ". Only file:// URIs are supported."))
  else
    Except.ok (pathResolve cwd resourceStoreUri)

/-- Tester for the configuration-error outcome of a store-path
resolution. -/
def isConfigError : Except FsError String → Bool
  | Except.error (FsError.configurationError _) => true
  | _ => false

/-- A path p names a location inside directory dir when it equals dir or is
a descendant of dir (dir plus a slash is a prefix of p); both paths are
taken fully resolved. -/
def insideDir (p dir : String) : Bool :=
  p == dir || jsStartsWith p (dir ++ "/")

/-- Attempt ceiling of generateValidatedId (the maxAttempts local of
utils.ts). -/
def maxAttempts : Nat := 100

/-- Loop body of generateValidatedId: calls counts the generator
invocations made so far and fuel is the number of loop iterations still
allowed (maxAttempts minus the attempts counter of the source).  Each
iteration invokes the generator once, returns its value when it does not
contain the delimiter, and otherwise retries.  The pair returned is the
outcome together with the total number of generator invocations. -/
def genGo (delimiter : String) (generateIdFn : Nat → String) :
    Nat → Nat → (Except FsError String) × Nat
  | calls, 0 => (Except.error (FsError.generationError delimiter maxAttempts), calls)
  | calls, fuel + 1 =>
      let id := generateIdFn calls
      if jsIncludes id delimiter then genGo delimiter generateIdFn (calls + 1) fuel
      else (Except.ok id, calls + 1)

/-- Embedding of generateValidatedId (utils.ts).  The generator is
modelled as a function of the invocation count (a deterministic stream of
candidate identifiers).  Returns the outcome and the number of generator
invocations performed. -/
def generateValidatedId (delimiter : String) (generateIdFn : Nat → String) :
    (Except FsError String) × Nat :=
  genGo delimiter generateIdFn 0 maxAttempts

/-- Embedding of the FileServingConfig interface (types.ts, as consumed by
utils.ts): the store location, an optional delimiter and an optional
identifier generator.  The generator is modelled as a stream indexed by
invocation count. -/
structure FileServingConfig where
  resourceStoreUri : String
  delimiter : Option String
  generateId : Option (Nat → String)

/-- Filesystem side effects performed by the reservation service and the
buffered writer, recorded in order. -/
inductive FsEffect where
  | mkdirRecursive (dir : String)
  | fsWrite (path : String) (bytes : List Nat)
deriving Repr, DecidableEq

/-- Embedding of the FileReservation interface (types.ts). -/
structure FileReservation where
  id : String
  storedName : String
  fullPath : String
deriving Repr, DecidableEq

/-- Embedding of reserveFile (utils.ts): apply the delimiter and generator
defaults, resolve the store directory, create it recursively, generate a
validated identifier, and return the reservation.  The default generator
(randomUUID in the source) is passed in as defaultGenerateId since its
output is ambient randomness.  The effect list records the filesystem
operations performed; no file is created. -/
def reserveFile (cwd originalFilename : String) (config : FileServingConfig)
    (defaultGenerateId : Nat → String) :
    (Except FsError FileReservation) × List FsEffect :=
  let delimiter := config.delimiter.getD DEFAULT_DELIMITER
  let generateIdFn := config.generateId.getD defaultGenerateId
  match resolveResourceStorePath cwd config.resourceStoreUri with
  | Except.error e => (Except.error e, [])
  | Except.ok outputDir =>
      match (generateValidatedId delimiter generateIdFn).1 with
      | Except.error e => (Except.error e, [FsEffect.mkdirRecursive outputDir])
      | Except.ok id =>
          let storedName := formatStoredName id originalFilename delimiter
          let fullPath := pathJoin outputDir storedName
          (Except.ok ⟨id, storedName, fullPath⟩, [FsEffect.mkdirRecursive outputDir])

/-- Embedding of writeFile (utils.ts): reserve a location, then write the
whole buffer to the reserved path. -/
def writeFile (cwd : String) (buffer : List Nat) (originalFilename : String)
    (config : FileServingConfig) (defaultGenerateId : Nat → String) :
    (Except FsError FileReservation) × List FsEffect :=
  match reserveFile cwd originalFilename config defaultGenerateId with
  | (Except.error e, effs) => (Except.error e, effs)
  | (Except.ok r, effs) => (Except.ok r, effs ++ [FsEffect.fsWrite r.fullPath buffer])

/-- Transport kind of the TransportConfig type (src/types.ts). -/
inductive TransportType where
  | stdio
  | http
deriving Repr, DecidableEq

/-- Embedding of the TransportConfig type (src/types.ts): a transport kind
with an optional port. -/
structure TransportConfig where
  type : TransportType
  port : Option Nat
deriving Repr, DecidableEq

/-- Embedding of the FileUriConfig interface as consumed by getFileUri
(utils.ts): store location plus optional baseUrl and endpoint. -/
structure FileUriConfig where
  resourceStoreUri : String
  baseUrl : Option String
  endpoint : Option String
deriving Repr, DecidableEq

/-- JavaScript truthiness of an optional string (undefined and the empty
string are falsy). -/
def isTruthyStr : Option String → Bool
  | none => false
  | some s => s.length != 0

/-- JavaScript truthiness of an optional number (undefined and zero are
falsy; NaN is not representable in this model). -/
def isTruthyNat : Option Nat → Bool
  | none => false
  | some n => n != 0

/-- Embedding of getFileUri (utils.ts): a file:// URI over the resolved
store directory joined with the stored name for an absent or stdio
transport; for an HTTP transport, either an explicit truthy baseUrl or a
truthy port is required, the base defaults to localhost with the port and
the endpoint defaults to /files. -/
def getFileUri (cwd storedFilename : String) (transport : Option TransportConfig)
    (config : FileUriConfig) : Except FsError String :=
  if (match transport with
      | none => true
      | some t => t.type == TransportType.stdio) then
    match resolveResourceStorePath cwd config.resourceStoreUri with
    | Except.error e => Except.error e
    | Except.ok outputDir =>
        Except.ok (fileUriScheme ++ pathResolve cwd (pathJoin outputDir storedFilename))
  else
    let t := transport.getD ⟨TransportType.http, none⟩
    if !isTruthyStr config.baseUrl && !isTruthyNat t.port then
      Except.error (FsError.configurationError
        "getFileUri: HTTP transport requires either baseUrl or port. This is a configuration error.")
    else
      let base :=
        if isTruthyStr config.baseUrl then config.baseUrl.getD ""
        else "http://localhost:" ++ toString (t.port.getD 0)
      let endp := if isTruthyStr config.endpoint then config.endpoint.getD "" else "/files"
      Except.ok (base ++ endp ++ "/" ++ storedFilename)

/-- Characters left unescaped by encodeURIComponent (ECMA-262
uriUnescaped): ASCII letters, digits, and minus, period, underscore,
tilde, bang, asterisk, apostrophe and the two parentheses, given by code
point. -/
def isUnreservedCode (n : Nat) : Bool :=
  (48 ≤ n && n ≤ 57) || (65 ≤ n && n ≤ 90) || (97 ≤ n && n ≤ 122) ||
  n == 45 || n == 46 || n == 95 || n == 126 ||
  n == 33 || n == 42 || n == 39 || n == 40 || n == 41

/-- Uppercase hexadecimal digit for a value below sixteen. -/
def hexDigitChar (n : Nat) : Char :=
  if n < 10 then Char.ofNat (48 + n) else Char.ofNat (55 + n)

/-- UTF-8 byte sequence of a Unicode code point. -/
def utf8Bytes (n : Nat) : List Nat :=
  if n < 128 then [n]
  else if n < 2048 then [192 + n / 64, 128 + n % 64]
  else if n < 65536 then [224 + n / 4096, 128 + (n / 64) % 64, 128 + n % 64]
  else [240 + n / 262144, 128 + (n / 4096) % 64, 128 + (n / 64) % 64, 128 + n % 64]

/-- Percent-escape of a single byte, uppercase hexadecimal. -/
def percentEncodeByte (b : Nat) : String :=
  String.mk [Char.ofNat 37, hexDigitChar (b / 16), hexDigitChar (b % 16)]

/-- Model of the JavaScript encodeURIComponent builtin: unreserved
characters are kept and every other character is replaced by the
percent-escapes of its UTF-8 bytes. -/
def encodeURIComponent (s : String) : String :=
  s.data.foldl
    (fun acc c =>
      if isUnreservedCode c.toNat then acc.push c
      else (utf8Bytes c.toNat).foldl (fun a b => a ++ percentEncodeByte b) acc)
    ""

/-- Content-Type option of FileServingRouterOptions (types.ts): a fixed
header value or a function of the stored filename. -/
inductive ContentTypeOpt where
  | fixed (value : String)
  | fromName (f : String → String)

/-- Embedding of the FileServingRouterOptions interface (types.ts). -/
structure FileServingRouterOptions where
  contentType : ContentTypeOpt
  contentDisposition : Option String

/-- Response body: plaintext for the error statuses, raw bytes for a
served file. -/
inductive Body where
  | text (s : String)
  | bytes (b : List Nat)
deriving Repr, DecidableEq

/-- Outcome of one request to the retrieval endpoint: status code, body,
and the Content-Type and Content-Disposition headers when set. -/
structure HttpResponse where
  status : Nat
  body : Body
  contentTypeHdr : Option String
  contentDispositionHdr : Option String
deriving Repr, DecidableEq

/-- Embedding of the GET handler installed by createFileServingRouter
(router.ts), with the store directory already resolved.  The filesystem is
a function from absolute paths to the byte content of the file stored
there, if any; existsSync and readFileSync are its isSome test and its
lookup.  The rawFilename argument is the :filename route parameter, absent
or empty meaning a missing parameter. -/
def handleGet (resolvedStorageDir delimiter : String)
    (options : FileServingRouterOptions)
    (fs : String → Option (List Nat)) (rawFilename : Option String) : HttpResponse :=
  match rawFilename with
  | none => ⟨400, Body.text "Bad request: filename parameter is required", none, none⟩
  | some filename =>
      if filename = "" then
        ⟨400, Body.text "Bad request: filename parameter is required", none, none⟩
      else
        let filePath := pathJoin resolvedStorageDir filename
        if !jsStartsWith filePath resolvedStorageDir then
          ⟨403, Body.text "Access denied", none, none⟩
        else
          match fs filePath with
          | none => ⟨404, Body.text "File not found", none, none⟩
          | some data =>
              let originalFilename := (parseStoredName filename delimiter).filename
              let ctValue :=
                match options.contentType with
                | ContentTypeOpt.fixed v => v
                | ContentTypeOpt.fromName f => f filename
              let disposition := options.contentDisposition.getD "attachment"
              ⟨200, Body.bytes data, some ctValue,
               some (disposition ++ "; filename=\"" ++ encodeURIComponent originalFilename ++ "\"")⟩

/-- Embedding of createFileServingRouter (router.ts) applied to one GET
request: resolving the store directory happens at router construction and
its failure is an error thrown there; otherwise the request is served by
the installed handler with the configured delimiter default applied. -/
def routerResponse (cwd : String) (config : FileServingConfig)
    (options : FileServingRouterOptions)
    (fs : String → Option (List Nat)) (rawFilename : Option String) :
    Except FsError HttpResponse :=
  match resolveResourceStorePath cwd config.resourceStoreUri with
  | Except.error e => Except.error e
  | Except.ok dir =>
      Except.ok (handleGet dir (config.delimiter.getD DEFAULT_DELIMITER) options fs rawFilename)

/-- Filesystem used by the traversal counterexamples: a single file lives
at a sibling directory of the store whose name shares the store directory
as a string prefix. -/
def evilFs : String → Option (List Nat) :=
  fun p => if p = "/tmp/store-evil/secret" then some [115, 51, 99] else none

theorem firstIdx_eq_none_of_not_isSome {s sub : List Char}
    (h : (firstIdx s sub).isSome = false) : firstIdx s sub = none := by
  cases hfi : firstIdx s sub with
  | none => rfl
  | some n => rw [hfi] at h; simp at h

theorem firstIdx_cons (a : Char) (t sub : List Char) :
    firstIdx (a :: t) sub =
      if sub.isPrefixOf (a :: t) then some 0
      else (firstIdx t sub).map (fun n => n + 1) := rfl

theorem firstIdx_nil (sub : List Char) :
    firstIdx [] sub = if sub.isPrefixOf [] then some 0 else none := rfl

theorem firstIdx_empty_sub (s : List Char) : firstIdx s [] = some 0 := by
  cases s with
  | nil => rw [firstIdx_nil]; simp [List.isPrefixOf]
  | cons a t => rw [firstIdx_cons]; simp [List.isPrefixOf]

theorem jsIncludes_empty_right (s : String) : jsIncludes s "" = true := by
  unfold jsIncludes
  rw [show ("" : String).data = [] from rfl, firstIdx_empty_sub]
  rfl

theorem firstIdx_append_cons (c : Char) (f : List Char) :
    ∀ i : List Char, c ∉ i → firstIdx (i ++ c :: f) [c] = some i.length := by
  intro i
  induction i with
  | nil =>
      intro _
      rw [List.nil_append, firstIdx_cons]
      simp [List.isPrefixOf]
  | cons a t ih =>
      intro h
      have hca : ¬ c = a := fun hc => h (by rw [hc]; exact List.mem_cons_self a t)
      have hct : c ∉ t := fun hc => h (List.mem_cons_of_mem a hc)
      rw [List.cons_append, firstIdx_cons]
      have hpre : ¬ ([c].isPrefixOf (a :: (t ++ c :: f)) = true) := by
        simp [List.isPrefixOf, hca]
      rw [if_neg hpre, ih hct]
      rfl

theorem not_mem_of_firstIdx_none (c : Char) :
    ∀ l : List Char, firstIdx l [c] = none → c ∉ l := by
  intro l
  induction l with
  | nil => intro _; simp
  | cons a t ih =>
      intro h hmem
      rw [firstIdx_cons] at h
      by_cases hpre : ([c].isPrefixOf (a :: t)) = true
      · rw [if_pos hpre] at h
        exact Option.noConfusion h
      · rw [if_neg hpre] at h
        have ht : firstIdx t [c] = none := by
          cases hfi : firstIdx t [c] with
          | none => rfl
          | some n => rw [hfi] at h; exact Option.noConfusion h
        have hca : ¬ c = a := by
          intro hc
          exact hpre (by simp [List.isPrefixOf, hc])
        rcases List.mem_cons.mp hmem with h1 | h2
        · exact hca h1
        · exact ih ht h2

theorem genGo_all_fail (d : String) (g : Nat → String)
    (hg : ∀ n, jsIncludes (g n) d = true) :
    ∀ fuel calls, genGo d g calls fuel =
      (Except.error (FsError.generationError d maxAttempts), calls + fuel) := by
  intro fuel
  induction fuel with
  | zero => intro calls; simp [genGo]
  | succ n ih =>
      intro calls
      unfold genGo
      rw [if_pos (hg calls)]
      rw [ih (calls + 1)]
      have : calls + 1 + n = calls + (n + 1) := by omega
      rw [this]

/-- C8: when the delimiter does not occur in the stored name at all,
parseStoredName signals no error and returns the whole input as both the
identifier and the filename. -/
theorem parseStoredName_fallback (s d : String)
    (h : jsIncludes s d = false) : parseStoredName s d = ⟨s, s⟩ := by
  unfold parseStoredName
  rw [firstIdx_eq_none_of_not_isSome h]

/-- Witness for C8 on the spec example: a hyphen delimiter absent from the
stored name report.pdf. -/
theorem parseStoredName_fallback_witness :
    parseStoredName "report.pdf" "-" = ⟨"report.pdf", "report.pdf"⟩ :=
  parseStoredName_fallback "report.pdf" "-" (by decide)

/-- C3 counterexample: for the two-character delimiter aa and the
identifier ba (which does not contain aa), formatting with filename x and
parsing back does not return the original pair, because an overlapping
occurrence of the delimiter appears before the one inserted by the
formatter.  The claim as stated is therefore false. -/
theorem parseStoredName_roundtrip_counterexample :
    jsIncludes "ba" "aa" = false ∧
    parseStoredName (formatStoredName "ba" "x" "aa") "aa" ≠ (⟨"ba", "x"⟩ : ParsedName) ∧
    parseStoredName (formatStoredName "ba" "x" "aa") "aa" = (⟨"b", "ax"⟩ : ParsedName) := by
  refine ⟨by decide, by decide, by decide⟩

/-- C3 amended: for every single-character delimiter d, every identifier i
not containing d, and every original filename f (which may itself contain
d), parseStoredName after formatStoredName returns the original pair: the
codec round-trips because formatting is plain concatenation and parsing
splits at the first occurrence of the delimiter, which for a
single-character delimiter excluded from the identifier is exactly the
formatted boundary. -/
theorem parseStoredName_split (s d : String) (n : Nat)
    (hfi : firstIdx s.data d.data = some n) :
    parseStoredName s d =
      ⟨String.mk (s.data.take n), String.mk (s.data.drop (n + d.data.length))⟩ := by
  unfold parseStoredName
  rw [hfi]

theorem parseStoredName_formatStoredName_roundtrip (i f d : String)
    (hd : d.length = 1) (hi : jsIncludes i d = false) :
    parseStoredName (formatStoredName i f d) d = ⟨i, f⟩ := by
  obtain ⟨c, hc⟩ : ∃ c, d.data = [c] := by
    have hlen : d.data.length = 1 := hd
    cases hdd : d.data with
    | nil => rw [hdd] at hlen; simp at hlen
    | cons a t =>
        rw [hdd] at hlen
        have ht : t = [] := by
          have h0 : t.length = 0 := by simpa using hlen
          exact List.length_eq_zero.mp h0
        exact ⟨a, by rw [ht]⟩
  have hnotmem : c ∉ i.data := by
    apply not_mem_of_firstIdx_none
    have h1 : (firstIdx i.data d.data).isSome = false := hi
    rw [hc] at h1
    exact firstIdx_eq_none_of_not_isSome h1
  have hdata : (formatStoredName i f d).data = i.data ++ c :: f.data := by
    simp [formatStoredName, String.data_append, hc]
  have hfi : firstIdx (formatStoredName i f d).data d.data = some i.data.length := by
    rw [hdata, hc]
    exact firstIdx_append_cons c f.data i.data hnotmem
  rw [parseStoredName_split _ _ i.data.length hfi]
  have e1 : (formatStoredName i f d).data.take i.data.length = i.data := by
    rw [hdata]
    exact List.take_left i.data (c :: f.data)
  have e2 : (formatStoredName i f d).data.drop (i.data.length + d.data.length) = f.data := by
    rw [hdata, hc]
    simp only [List.length_singleton]
    have hsplit : i.data ++ c :: f.data = (i.data ++ [c]) ++ f.data := by simp
    have hlen2 : i.data.length + 1 = (i.data ++ [c]).length := by simp
    rw [hsplit, hlen2]
    exact List.drop_left (i.data ++ [c]) f.data
  rw [e1, e2]

/-- Witness for the amended C3 at the spec example with a delimiter that
also occurs inside the original filename. -/
theorem parseStoredName_formatStoredName_roundtrip_witness :
    parseStoredName (formatStoredName "abc123" "my-report-v2.pdf" "-") "-" =
      ⟨"abc123", "my-report-v2.pdf"⟩ :=
  parseStoredName_formatStoredName_roundtrip "abc123" "my-report-v2.pdf" "-"
    (by decide) (by decide)

/-- C4: a generator that always returns a value containing the delimiter
makes generateValidatedId invoke the generator exactly one hundred times
and then fail with the generation error naming the delimiter and the
ceiling; it never succeeds and the loop terminates. -/
theorem generateValidatedId_ceiling (d : String) (g : Nat → String)
    (hg : ∀ n, jsIncludes (g n) d = true) :
    generateValidatedId d g = (Except.error (FsError.generationError d 100), 100) := by
  unfold generateValidatedId
  have h := genGo_all_fail d g hg maxAttempts 0
  rw [h]
  rfl

/-- Witness for C4 at the constant generator whose value contains the
tilde delimiter. -/
theorem generateValidatedId_ceiling_witness :
    generateValidatedId "~" (fun _ => "a~a") =
      (Except.error (FsError.generationError "~" 100), 100) :=
  generateValidatedId_ceiling "~" (fun _ => "a~a")
    (by intro n; show jsIncludes "a~a" "~" = true; decide)

theorem startsWith_slash_of_rooted (res : String) :
    jsStartsWith (if res.length = 0 then "/" else "/" ++ res) "/" = true := by
  split
  · rfl
  · unfold jsStartsWith
    rw [String.data_append]
    show (['/'] : List Char).isPrefixOf (['/'] ++ res.data) = true
    simp [List.isPrefixOf]

theorem pathResolve_startsWith_slash (cwd p : String) :
    jsStartsWith (pathResolve cwd p) "/" = true := by
  unfold pathResolve
  dsimp only
  exact startsWith_slash_of_rooted _

/-- C6: the store path resolver fails with a configuration error exactly
when its input is empty or contains a scheme pattern other than file://
(that is, it does not begin with file:// yet contains a scheme separator);
an input beginning with file:// has the prefix stripped and the remainder
resolved as a path, a bare path is resolved against the current working
directory, and every non-error result is an absolute path. -/
theorem resolveResourceStorePath_spec (cwd uri : String) :
    (isConfigError (resolveResourceStorePath cwd uri) = true ↔
        (uri = "" ∨ (jsStartsWith uri fileUriScheme = false ∧ jsIncludes uri "://" = true)))
    ∧ (jsStartsWith uri fileUriScheme = true →
        resolveResourceStorePath cwd uri =
          Except.ok (pathResolve cwd (jsDrop uri fileUriScheme.length)))
    ∧ (uri ≠ "" → jsStartsWith uri fileUriScheme = false → jsIncludes uri "://" = false →
        resolveResourceStorePath cwd uri = Except.ok (pathResolve cwd uri))
    ∧ (∀ dir, resolveResourceStorePath cwd uri = Except.ok dir →
        jsStartsWith dir "/" = true) := by
  by_cases h1 : uri = ""
  · refine ⟨by simp [resolveResourceStorePath, h1, isConfigError], ?_, ?_, ?_⟩
    · intro h2
      rw [h1] at h2
      exact absurd h2 (by decide)
    · intro hne
      exact absurd h1 hne
    · intro dir hdir
      rw [h1] at hdir
      simp [resolveResourceStorePath] at hdir
  · by_cases h2 : jsStartsWith uri fileUriScheme = true
    · refine ⟨?_, ?_, ?_, ?_⟩
      · simp [resolveResourceStorePath, h1, h2, isConfigError]
      · intro _
        simp [resolveResourceStorePath, h1, h2]
      · intro _ h2f _
        rw [h2] at h2f
        exact absurd h2f (by decide)
      · intro dir hdir
        simp [resolveResourceStorePath, h1, h2] at hdir
        rw [← hdir]
        exact pathResolve_startsWith_slash cwd _
    · have h2f : jsStartsWith uri fileUriScheme = false := by
        rw [← Bool.not_eq_true]; exact h2
      by_cases h3 : jsIncludes uri "://" = true
      · refine ⟨?_, ?_, ?_, ?_⟩
        · simp [resolveResourceStorePath, h1, h2f, h3, isConfigError]
        · intro hst
          rw [hst] at h2f
          exact absurd h2f (by decide)
        · intro _ _ h3f
          rw [h3] at h3f
          exact absurd h3f (by decide)
        · intro dir hdir
          simp [resolveResourceStorePath, h1, h2f, h3] at hdir
      · have h3f : jsIncludes uri "://" = false := by
          rw [← Bool.not_eq_true]; exact h3
        refine ⟨?_, ?_, ?_, ?_⟩
        · simp [resolveResourceStorePath, h1, h2f, h3f, isConfigError]
        · intro hst
          rw [hst] at h2f
          exact absurd h2f (by decide)
        · intro _ _ _
          simp [resolveResourceStorePath, h1, h2f, h3f]
        · intro dir hdir
          simp [resolveResourceStorePath, h1, h2f, h3f] at hdir
          rw [← hdir]
          exact pathResolve_startsWith_slash cwd _

/-- Witness for C6: a file:// input resolves with the prefix stripped, a
bare relative path resolves against the working directory, an unsupported
scheme and the empty input are configuration errors. -/
theorem resolveResourceStorePath_spec_witness :
    resolveResourceStorePath "/work" "file:///tmp/files" = Except.ok "/tmp/files"
    ∧ resolveResourceStorePath "/work" "data/files" = Except.ok "/work/data/files"
    ∧ isConfigError (resolveResourceStorePath "/work" "https://example.com/files") = true
    ∧ isConfigError (resolveResourceStorePath "/work" "") = true := by
  refine ⟨?_, ?_, ?_, ?_⟩
  · have h := (resolveResourceStorePath_spec "/work" "file:///tmp/files").2.1 (by decide)
    rw [h]
    rfl
  · have h := (resolveResourceStorePath_spec "/work" "data/files").2.2.1
      (by decide) (by decide) (by decide)
    rw [h]
    rfl
  · exact (resolveResourceStorePath_spec "/work" "https://example.com/files").1.mpr
      (Or.inr ⟨by decide, by decide⟩)
  · exact (resolveResourceStorePath_spec "/work" "").1.mpr (Or.inl rfl)

/-- C5 counterexample: an HTTP transport carrying port zero with no
explicit base is an HTTP transport with a port, yet getFileUri fails with
the configuration error instead of returning the localhost URI, because
the source tests the port for JavaScript truthiness and zero is falsy.
The claim as stated is therefore false at port zero. -/
theorem getFileUri_port_zero_counterexample :
    getFileUri "/" "f.pdf" (some ⟨TransportType.http, some 0⟩)
        ⟨"file:///tmp/files", none, none⟩ =
      Except.error (FsError.configurationError
        "getFileUri: HTTP transport requires either baseUrl or port. This is a configuration error.")
    ∧ getFileUri "/" "f.pdf" (some ⟨TransportType.http, some 0⟩)
        ⟨"file:///tmp/files", none, none⟩ ≠
      Except.ok ("http://localhost:" ++ toString 0 ++ "/files" ++ "/" ++ "f.pdf") := by
  constructor
  · rfl
  · intro h
    rw [show getFileUri "/" "f.pdf" (some ⟨TransportType.http, some 0⟩)
        ⟨"file:///tmp/files", none, none⟩ =
      Except.error (FsError.configurationError
        "getFileUri: HTTP transport requires either baseUrl or port. This is a configuration error.") from rfl] at h
    exact Except.noConfusion h

/-- C5 amended: getFileUri branches on the transport descriptor.  For an
absent or stdio transport it returns a file:// URI over the resolved store
directory joined with the stored name; for an HTTP transport with a
nonzero port and no explicit base or endpoint it returns exactly
http://localhost:{port}/files/{name}; with an explicit nonempty base and
endpoint it returns {base}{endpoint}/{name}; and for an HTTP transport
with neither baseUrl nor port it fails with a configuration error. -/
theorem getFileUri_branching (cwd name : String) (cfg : FileUriConfig) :
    (∀ dir p, resolveResourceStorePath cwd cfg.resourceStoreUri = Except.ok dir →
        getFileUri cwd name none cfg =
          Except.ok (fileUriScheme ++ pathResolve cwd (pathJoin dir name))
        ∧ getFileUri cwd name (some ⟨TransportType.stdio, p⟩) cfg =
          Except.ok (fileUriScheme ++ pathResolve cwd (pathJoin dir name)))
    ∧ (∀ p : Nat, p ≠ 0 → cfg.baseUrl = none → cfg.endpoint = none →
        getFileUri cwd name (some ⟨TransportType.http, some p⟩) cfg =
          Except.ok ("http://localhost:" ++ toString p ++ "/files" ++ "/" ++ name))
    ∧ (∀ b e p, cfg.baseUrl = some b → b ≠ "" → cfg.endpoint = some e → e ≠ "" →
        getFileUri cwd name (some ⟨TransportType.http, p⟩) cfg =
          Except.ok (b ++ e ++ "/" ++ name))
    ∧ (cfg.baseUrl = none →
        getFileUri cwd name (some ⟨TransportType.http, none⟩) cfg =
          Except.error (FsError.configurationError
            "getFileUri: HTTP transport requires either baseUrl or port. This is a configuration error.")) := by
  refine ⟨?_, ?_, ?_, ?_⟩
  · intro dir p hdir
    constructor
    · simp [getFileUri, hdir]
    · simp [getFileUri, hdir]
  · intro p hp hb he
    have hpb : (p != 0) = true := by simpa using hp
    simp [getFileUri, hb, he, isTruthyStr, isTruthyNat, hpb]
  · intro b e p hb hbne he hene
    have hbb : (b.length != 0) = true := by
      simp only [bne_iff_ne, ne_eq]
      intro hlen
      exact hbne (by
        cases b with
        | mk data =>
            cases data with
            | nil => rfl
            | cons a t => simp [String.length] at hlen)
    have heb : (e.length != 0) = true := by
      simp only [bne_iff_ne, ne_eq]
      intro hlen
      exact hene (by
        cases e with
        | mk data =>
            cases data with
            | nil => rfl
            | cons a t => simp [String.length] at hlen)
    simp [getFileUri, hb, he, isTruthyStr, isTruthyNat, hbb, heb]
  · intro hb
    simp [getFileUri, hb, isTruthyStr, isTruthyNat]

/-- Witness for the amended C5: all four branches at concrete inputs. -/
theorem getFileUri_branching_witness :
    getFileUri "/work" "f.pdf" none ⟨"file:///tmp/files", none, none⟩ =
      Except.ok (fileUriScheme ++ pathResolve "/work" (pathJoin "/tmp/files" "f.pdf"))
    ∧ getFileUri "/work" "f.pdf" (some ⟨TransportType.http, some 3000⟩)
        ⟨"file:///tmp/files", none, none⟩ =
      Except.ok ("http://localhost:" ++ toString 3000 ++ "/files" ++ "/" ++ "f.pdf")
    ∧ getFileUri "/work" "f.pdf" (some ⟨TransportType.http, some 3000⟩)
        ⟨"file:///tmp/files", some "https://example.com", some "/api/files"⟩ =
      Except.ok ("https://example.com" ++ "/api/files" ++ "/" ++ "f.pdf")
    ∧ getFileUri "/work" "f.pdf" (some ⟨TransportType.http, none⟩)
        ⟨"file:///tmp/files", none, none⟩ =
      Except.error (FsError.configurationError
        "getFileUri: HTTP transport requires either baseUrl or port. This is a configuration error.") := by
  refine ⟨?_, ?_, ?_, ?_⟩
  · exact ((getFileUri_branching "/work" "f.pdf" ⟨"file:///tmp/files", none, none⟩).1
      "/tmp/files" none (by rfl)).1
  · exact (getFileUri_branching "/work" "f.pdf" ⟨"file:///tmp/files", none, none⟩).2.1
      3000 (by decide) rfl rfl
  · exact (getFileUri_branching "/work" "f.pdf"
      ⟨"file:///tmp/files", some "https://example.com", some "/api/files"⟩).2.2.1
      "https://example.com" "/api/files" (some 3000) rfl (by decide) rfl (by decide)
  · exact (getFileUri_branching "/work" "f.pdf" ⟨"file:///tmp/files", none, none⟩).2.2.2 rfl

/-- C9: a successful reserveFile returns a reservation whose stored name
is the concatenation of the generated identifier, the effective delimiter
and the original filename, whose full path is the resolved store directory
joined with the stored name, and whose only filesystem effect is the
idempotent creation of the store directory; no file is created at the full
path (no write effect is recorded). -/
theorem reserveFile_success_shape (cwd f : String) (config : FileServingConfig)
    (defaultGen : Nat → String) (r : FileReservation) (effs : List FsEffect)
    (h : reserveFile cwd f config defaultGen = (Except.ok r, effs)) :
    ∃ dir, resolveResourceStorePath cwd config.resourceStoreUri = Except.ok dir ∧
      r.storedName = r.id ++ config.delimiter.getD DEFAULT_DELIMITER ++ f ∧
      r.fullPath = pathJoin dir r.storedName ∧
      effs = [FsEffect.mkdirRecursive dir] := by
  unfold reserveFile at h
  cases hres : resolveResourceStorePath cwd config.resourceStoreUri with
  | error e =>
      rw [hres] at h
      exact absurd (congrArg Prod.fst h) (by simp)
  | ok dir =>
      rw [hres] at h
      dsimp only at h
      cases hgen : (generateValidatedId (config.delimiter.getD DEFAULT_DELIMITER)
          (config.generateId.getD defaultGen)).1 with
      | error e =>
          rw [hgen] at h
          exact absurd (congrArg Prod.fst h) (by simp)
      | ok id =>
          rw [hgen] at h
          dsimp only at h
          have hr : r = ⟨id, formatStoredName id f (config.delimiter.getD DEFAULT_DELIMITER),
              pathJoin dir (formatStoredName id f (config.delimiter.getD DEFAULT_DELIMITER))⟩ := by
            have h1 := congrArg Prod.fst h
            simp at h1
            exact h1.symm
          have heffs : effs = [FsEffect.mkdirRecursive dir] := by
            have h2 := congrArg Prod.snd h
            simp at h2
            exact h2.symm
          refine ⟨dir, rfl, ?_, ?_, heffs⟩
          · rw [hr]
            simp [formatStoredName]
          · rw [hr]

/-- Witness for C9 at a concrete configuration whose generator returns a
fixed identifier. -/
theorem reserveFile_success_shape_witness :
    ∃ dir, resolveResourceStorePath "/"
        (FileServingConfig.mk "file:///tmp/files" (some "-") (some (fun _ => "abc"))).resourceStoreUri =
          Except.ok dir ∧
      (FileReservation.mk "abc" "abc-x.txt" "/tmp/files/abc-x.txt").storedName =
        (FileReservation.mk "abc" "abc-x.txt" "/tmp/files/abc-x.txt").id ++
          (FileServingConfig.mk "file:///tmp/files" (some "-")
            (some (fun _ => "abc"))).delimiter.getD DEFAULT_DELIMITER ++ "x.txt" ∧
      (FileReservation.mk "abc" "abc-x.txt" "/tmp/files/abc-x.txt").fullPath =
        pathJoin dir (FileReservation.mk "abc" "abc-x.txt" "/tmp/files/abc-x.txt").storedName ∧
      [FsEffect.mkdirRecursive "/tmp/files"] = [FsEffect.mkdirRecursive dir] :=
  reserveFile_success_shape "/" "x.txt"
    (FileServingConfig.mk "file:///tmp/files" (some "-") (some (fun _ => "abc")))
    (fun _ => "zz") (FileReservation.mk "abc" "abc-x.txt" "/tmp/files/abc-x.txt")
    [FsEffect.mkdirRecursive "/tmp/files"] rfl

/-- C10: with an empty-string delimiter every candidate identifier
contains the delimiter, so identifier generation always exhausts the
one-hundred-attempt ceiling with exactly one hundred generator
invocations and fails with the generation error, for every generator;
consequently reserveFile and writeFile never succeed under such a
configuration, and whenever the store location resolves the failure is
exactly the generation error after the mkdir effect. -/
theorem reserveFile_empty_delimiter (cwd f : String) (buffer : List Nat)
    (config : FileServingConfig) (defaultGen : Nat → String)
    (hdelim : config.delimiter = some "") :
    (∀ g : Nat → String, generateValidatedId "" g =
        (Except.error (FsError.generationError "" 100), 100))
    ∧ (reserveFile cwd f config defaultGen).1.isOk = false
    ∧ (writeFile cwd buffer f config defaultGen).1.isOk = false
    ∧ (∀ dir, resolveResourceStorePath cwd config.resourceStoreUri = Except.ok dir →
        reserveFile cwd f config defaultGen =
          (Except.error (FsError.generationError "" 100), [FsEffect.mkdirRecursive dir])) := by
  have hgenAll : ∀ g : Nat → String, generateValidatedId "" g =
      (Except.error (FsError.generationError "" 100), 100) := by
    intro g
    unfold generateValidatedId
    rw [genGo_all_fail "" g (fun n => jsIncludes_empty_right (g n)) maxAttempts 0]
    rfl
  have hresv : ∀ dir, resolveResourceStorePath cwd config.resourceStoreUri = Except.ok dir →
      reserveFile cwd f config defaultGen =
        (Except.error (FsError.generationError "" 100), [FsEffect.mkdirRecursive dir]) := by
    intro dir hdir
    unfold reserveFile
    rw [hdir, hdelim]
    simp only [Option.getD_some]
    rw [hgenAll (config.generateId.getD defaultGen)]
  have hok : (reserveFile cwd f config defaultGen).1.isOk = false := by
    cases hdir : resolveResourceStorePath cwd config.resourceStoreUri with
    | error e =>
        unfold reserveFile
        rw [hdir]
        rfl
    | ok dir =>
        rw [hresv dir hdir]
        rfl
  refine ⟨hgenAll, hok, ?_, hresv⟩
  cases hr : reserveFile cwd f config defaultGen with
  | mk fst snd =>
      cases fst with
      | error e =>
          unfold writeFile
          rw [hr]
          rfl
      | ok rr =>
          rw [hr] at hok
          exact Bool.noConfusion hok

/-- Witness for C10 at a concrete empty-delimiter configuration. -/
theorem reserveFile_empty_delimiter_witness :
    (reserveFile "/" "a.txt"
        (FileServingConfig.mk "file:///tmp/files" (some "") none)
        (fun _ => "id")).1.isOk = false :=
  (reserveFile_empty_delimiter "/" "a.txt" [104]
    (FileServingConfig.mk "file:///tmp/files" (some "") none)
    (fun _ => "id") rfl).2.1

/-- C1 (code defect): the requested filename ../store-evil/secret resolves
to /tmp/store-evil/secret, which is not inside the resolved store
directory /tmp/store, yet the GET handler returns status 200 and serves
the sibling file, because the traversal guard tests only that the joined
path starts with the store-directory string and /tmp/store is a string
prefix of /tmp/store-evil/secret.  The containment claim is violated by
the code at this input. -/
theorem router_traversal_escape_200 :
    insideDir (pathJoin "/tmp/store" "../store-evil/secret") "/tmp/store" = false
    ∧ routerResponse "/" ⟨"file:///tmp/store", none, none⟩
        ⟨ContentTypeOpt.fixed "application/pdf", none⟩ evilFs
        (some "../store-evil/secret") =
      Except.ok ⟨200, Body.bytes [115, 51, 99], some "application/pdf",
        some "attachment; filename=\"..%2Fstore-evil%2Fsecret\""⟩ :=
  ⟨rfl, rfl⟩

/-- C2 counterexample: the requested filename ../store-evil/nothere
resolves to /tmp/store-evil/nothere, which escapes the store directory
/tmp/store, yet with an empty filesystem the handler returns 404 rather
than 403, because the resolved path passes the string-prefix containment
test and the request falls through to the existence check.  The claim as
stated (403 for every escaping resolved path, never 404) is therefore
false. -/
theorem router_escape_404_counterexample :
    insideDir (pathJoin "/tmp/store" "../store-evil/nothere") "/tmp/store" = false
    ∧ routerResponse "/" ⟨"file:///tmp/store", none, none⟩
        ⟨ContentTypeOpt.fixed "text/plain", none⟩ (fun _ => none)
        (some "../store-evil/nothere") =
      Except.ok ⟨404, Body.text "File not found", none, none⟩ :=
  ⟨rfl, rfl⟩

/-- C2 amended: the handler checks its guards in the fixed order 400,
then 403, then 404, then 200: a missing or empty filename parameter is
answered 400 before anything else, and for every requested filename whose
joined path fails the string-prefix containment test the handler returns
403 for every filesystem state — in particular even when no file exists
at the resolved path, so such a request is never answered 404; the
existence check runs only after the containment test passes. -/
theorem handleGet_precedence (dir delim : String)
    (opts : FileServingRouterOptions) (fs : String → Option (List Nat))
    (name : String) :
    handleGet dir delim opts fs none =
      ⟨400, Body.text "Bad request: filename parameter is required", none, none⟩
    ∧ handleGet dir delim opts fs (some "") =
      ⟨400, Body.text "Bad request: filename parameter is required", none, none⟩
    ∧ (name ≠ "" → jsStartsWith (pathJoin dir name) dir = false →
        handleGet dir delim opts fs (some name) =
          ⟨403, Body.text "Access denied", none, none⟩) := by
  refine ⟨rfl, rfl, ?_⟩
  intro hname hguard
  unfold handleGet
  dsimp only
  rw [if_neg hname]
  rw [hguard]
  rfl

/-- Witness for the amended C2: a classic dot-dot traversal request is
answered 403 even on a filesystem where the escaped target exists. -/
theorem handleGet_precedence_witness :
    handleGet "/tmp/store" "~" ⟨ContentTypeOpt.fixed "text/plain", none⟩
        (fun _ => some [104]) (some "../../etc/passwd") =
      ⟨403, Body.text "Access denied", none, none⟩ :=
  (handleGet_precedence "/tmp/store" "~" ⟨ContentTypeOpt.fixed "text/plain", none⟩
    (fun _ => some [104]) "../../etc/passwd").2.2 (by decide) (by rfl)

/-- C7: whenever the handler answers 200 the response carries exactly the
full bytes stored at the joined path, a Content-Type equal to the
configured constant or to the caller-supplied function applied to the
stored filename, and a Content-Disposition made of the configured
disposition (default attachment) and the percent-encoded original
filename recovered by parsing the stored name. -/
theorem handleGet_success_inversion (dir delim : String)
    (opts : FileServingRouterOptions) (fs : String → Option (List Nat))
    (name : String) (resp : HttpResponse)
    (h : handleGet dir delim opts fs (some name) = resp)
    (h200 : resp.status = 200) :
    ∃ data, fs (pathJoin dir name) = some data ∧
      resp.body = Body.bytes data ∧
      resp.contentTypeHdr = some (match opts.contentType with
        | ContentTypeOpt.fixed v => v
        | ContentTypeOpt.fromName g => g name) ∧
      resp.contentDispositionHdr =
        some (opts.contentDisposition.getD "attachment" ++ "; filename=\"" ++
          encodeURIComponent (parseStoredName name delim).filename ++ "\"") := by
  unfold handleGet at h
  dsimp only at h
  by_cases hname : name = ""
  · rw [if_pos hname] at h
    rw [← h] at h200
    exact absurd h200 (by decide)
  · rw [if_neg hname] at h
    by_cases hguard : jsStartsWith (pathJoin dir name) dir = true
    · rw [hguard] at h
      simp only [Bool.not_true] at h
      rw [if_neg Bool.false_ne_true] at h
      cases hfs : fs (pathJoin dir name) with
      | none =>
          rw [hfs] at h
          dsimp only at h
          rw [← h] at h200
          exact absurd h200 (by decide)
      | some data =>
          rw [hfs] at h
          dsimp only at h
          refine ⟨data, rfl, ?_, ?_, ?_⟩
          · rw [← h]
          · rw [← h]
          · rw [← h]
    · have hguardf : jsStartsWith (pathJoin dir name) dir = false := by
        rw [← Bool.not_eq_true]; exact hguard
      rw [hguardf] at h
      simp only [Bool.not_false, if_true] at h
      rw [← h] at h200
      exact absurd h200 (by decide)

/-- Witness for C7 at a stored name containing a space, exercising the
delimiter parse, the disposition default override and the
percent-encoding. -/
theorem handleGet_success_inversion_witness :
    ∃ data, (fun p => if p = "/tmp/store/abc~a b.txt" then some [104, 105] else none)
        (pathJoin "/tmp/store" "abc~a b.txt") = some data ∧
      (HttpResponse.mk 200 (Body.bytes [104, 105]) (some "text/plain")
          (some "inline; filename=\"a%20b.txt\"")).body = Body.bytes data ∧
      (HttpResponse.mk 200 (Body.bytes [104, 105]) (some "text/plain")
          (some "inline; filename=\"a%20b.txt\"")).contentTypeHdr =
        some (match (FileServingRouterOptions.mk (ContentTypeOpt.fixed "text/plain")
            (some "inline")).contentType with
          | ContentTypeOpt.fixed v => v
          | ContentTypeOpt.fromName g => g "abc~a b.txt") ∧
      (HttpResponse.mk 200 (Body.bytes [104, 105]) (some "text/plain")
          (some "inline; filename=\"a%20b.txt\"")).contentDispositionHdr =
        some ((FileServingRouterOptions.mk (ContentTypeOpt.fixed "text/plain")
            (some "inline")).contentDisposition.getD "attachment" ++ "; filename=\"" ++
          encodeURIComponent (parseStoredName "abc~a b.txt" "~").filename ++ "\"") :=
  handleGet_success_inversion "/tmp/store" "~"
    (FileServingRouterOptions.mk (ContentTypeOpt.fixed "text/plain") (some "inline"))
    (fun p => if p = "/tmp/store/abc~a b.txt" then some [104, 105] else none)
    "abc~a b.txt"
    (HttpResponse.mk 200 (Body.bytes [104, 105]) (some "text/plain")
      (some "inline; filename=\"a%20b.txt\""))
    rfl rfl

/-- C10 counterexample: a configuration with the empty delimiter but an
empty store location fails with the configuration error raised by the
store path resolver before any identifier generation, not with the
generation error after the hundred-attempt ceiling; so the claim as
stated (always the generation error) is false for that configuration. -/
theorem reserveFile_empty_delimiter_counterexample :
    reserveFile "/" "a.txt" (FileServingConfig.mk "" (some "") none) (fun _ => "id") =
      (Except.error (FsError.configurationError "File serving requires a resourceStoreUri."), [])
    ∧ (reserveFile "/" "a.txt" (FileServingConfig.mk "" (some "") none) (fun _ => "id")).1 ≠
      Except.error (FsError.generationError "" 100) := by
  constructor
  · rfl
  · intro heq
    rw [show (reserveFile "/" "a.txt" (FileServingConfig.mk "" (some "") none)
        (fun _ => "id")).1 =
      Except.error (FsError.configurationError "File serving requires a resourceStoreUri.")
      from rfl] at heq
    exact FsError.noConfusion (Except.error.inj heq)
